import Mathlib

/-!
Verification development for the invoiceAI document-to-candidate pipeline.

The Python sources `src/extract/extract.py` (acquisition tiers, acquisition
selector, page-confidence estimator, field-candidate generator) and
`src/parse/ai_parse.py` (entity/field fusion) are shallowly embedded below.
Floating-point arithmetic is modelled by exact rationals, Python strings by
`String`/`List Char`, and the fixed regular expressions of the source by an
abstract syntax tree `RE` together with a standard leftmost backtracking
matcher mirroring the semantics of the `re` module on those patterns.
-/

namespace InvoiceAI

/-- The whitespace test used by `str.strip`, `str.split` and the pattern
class `\s` (restricted to the ASCII whitespace actually exercised here). -/
def pyIsSpace (c : Char) : Bool :=
  c = ' ' || c = '\t' || c = '\n' || c = '\r' || c.toNat = 11 || c.toNat = 12

/-- `str.strip()` on a character list: drop whitespace from both ends. -/
def stripChars (l : List Char) : List Char :=
  ((l.dropWhile pyIsSpace).reverse.dropWhile pyIsSpace).reverse

/-- Python `value.strip()`. -/
def pyStrip (s : String) : String :=
  (stripChars s.data).asString

/-- Python `str.lower()` (ASCII case folding, as exercised here). -/
def strLower (s : String) : String :=
  (s.data.map Char.toLower).asString

/-- Python substring test `needle in hay` on character lists. -/
def containsSub (needle : List Char) : List Char → Bool
  | [] => needle.isEmpty
  | c :: rest => needle.isPrefixOf (c :: rest) || containsSub needle rest

/-- Helper for `pySplit`: accumulate the current word while scanning. -/
def pySplitChars : List Char → List Char → List (List Char)
  | [], acc => if acc.isEmpty then [] else [acc.reverse]
  | c :: cs, acc =>
    if pyIsSpace c then
      if acc.isEmpty then pySplitChars cs [] else acc.reverse :: pySplitChars cs []
    else pySplitChars cs (c :: acc)

/-- Python `value.split()`: split on whitespace runs, discarding empties. -/
def pySplit (s : String) : List String :=
  (pySplitChars s.data []).map List.asString

/-- Helper for `pySplitlines`: each newline terminates a (possibly empty)
line; a final segment without terminator is kept only when non-empty. -/
def splitlinesChars : List Char → List Char → List (List Char)
  | [], acc => if acc.isEmpty then [] else [acc.reverse]
  | c :: cs, acc =>
    if c = '\n' then acc.reverse :: splitlinesChars cs []
    else splitlinesChars cs (c :: acc)

/-- Python `text.splitlines()` restricted to the newline separator, which is
the only line terminator produced by this pipeline. -/
def pySplitlines (s : String) : List String :=
  (splitlinesChars s.data []).map List.asString

/-- `round` to integer as Python `round` behaves on these values: round half
to even, otherwise to the nearest integer. -/
def roundHalfEven (q : ℚ) : ℤ :=
  if q - ⌊q⌋ = 1/2 then (if ⌊q⌋ % 2 = 0 then ⌊q⌋ else ⌊q⌋ + 1) else round q

/-- Python `round(q, 2)`. -/
def pyRound2 (q : ℚ) : ℚ :=
  (roundHalfEven (q * 100) : ℚ) / 100

/-- `statistics.mean` (callers guard against the empty list). -/
def mean (l : List ℚ) : ℚ :=
  l.sum / (l.length : ℚ)

/-!
## Regular expressions

Abstract syntax for the five fixed patterns of the source.  Alternation is
ordered (left preferred), `starG`/`starL` are the greedy and lazy repetitions,
`grp` is a numbered capturing group and `eos` is the `$` anchor.
-/

inductive RE : Type where
  | eps : RE
  | eos : RE
  | cls : (Char → Bool) → RE
  | cat : RE → RE → RE
  | alt : RE → RE → RE
  | starG : RE → RE
  | starL : RE → RE
  | grp : Nat → RE → RE

/-- Structural size, used only to compute a sufficient fuel bound. -/
def RE.size : RE → Nat
  | .eps => 1
  | .eos => 1
  | .cls _ => 1
  | .cat a b => a.size + b.size + 1
  | .alt a b => a.size + b.size + 1
  | .starG a => a.size + 1
  | .starL a => a.size + 1
  | .grp _ a => a.size + 1

/-- Captures: `(group index, start offset, end offset)`, most recent first. -/
abbrev Caps := List (Nat × Nat × Nat)

/-- Backtracking matcher in continuation-passing style, mirroring the
leftmost preference order of the `re` module: ordered alternation, greedy
`starG` tries the body first, lazy `starL` tries the continuation first.
The `p = pos` guards only cut zero-width repetition steps, which none of the
embedded patterns can perform.  Fuel bounds the call nesting depth; callers
supply `reFuel`, which is large enough for every input. -/
def reM : Nat → RE → List Char → Nat → Caps → (Nat → Caps → Option (Nat × Caps)) →
    Option (Nat × Caps)
  | 0, _, _, _, _, _ => none
  | _ + 1, .eps, _, pos, caps, k => k pos caps
  | _ + 1, .eos, s, pos, caps, k => if pos = s.length then k pos caps else none
  | _ + 1, .cls p, s, pos, caps, k =>
    match s.get? pos with
    | some c => if p c then k (pos + 1) caps else none
    | none => none
  | fuel + 1, .cat a b, s, pos, caps, k =>
    reM fuel a s pos caps (fun p c => reM fuel b s p c k)
  | fuel + 1, .alt a b, s, pos, caps, k =>
    match reM fuel a s pos caps k with
    | some r => some r
    | none => reM fuel b s pos caps k
  | fuel + 1, .starG a, s, pos, caps, k =>
    match reM fuel a s pos caps
        (fun p c => if p = pos then none else reM fuel (.starG a) s p c k) with
    | some r => some r
    | none => k pos caps
  | fuel + 1, .starL a, s, pos, caps, k =>
    match k pos caps with
    | some r => some r
    | none =>
      reM fuel a s pos caps
        (fun p c => if p = pos then none else reM fuel (.starL a) s p c k)
  | fuel + 1, .grp i a, s, pos, caps, k =>
    reM fuel a s pos caps (fun p c => k p ((i, pos, p) :: c))

/-- Fuel sufficient for matching `r` anywhere in `s`. -/
def reFuel (r : RE) (s : List Char) : Nat :=
  (r.size + 2) * (s.length + 2)

/-- Attempt an anchored match of `r` at position `pos` (Python `re.match`
semantics when `pos = 0`); returns the end position and captures. -/
def reMatchAt (r : RE) (s : List Char) (pos : Nat) : Option (Nat × Caps) :=
  reM (reFuel r s) r s pos [] (fun p c => some (p, c))

/-- `re.search` scanning positions `pos, pos+1, ...` (`tries` of them). -/
def reSearchFrom (r : RE) (s : List Char) : Nat → Nat → Option (Nat × Nat × Caps)
  | 0, _ => none
  | tries + 1, pos =>
    match reMatchAt r s pos with
    | some m => some (pos, m.1, m.2)
    | none => reSearchFrom r s tries (pos + 1)

/-- `re.search`: leftmost match as `(start, end, captures)`. -/
def reSearch (r : RE) (s : List Char) : Option (Nat × Nat × Caps) :=
  reSearchFrom r s (s.length + 1) 0

/-- `re.finditer` driver: collect non-overlapping matches left to right. -/
def reFindFrom (r : RE) (s : List Char) : Nat → Nat → List (Nat × Nat × Caps)
  | 0, _ => []
  | tries + 1, pos =>
    match reSearchFrom r s (s.length + 1 - pos) pos with
    | none => []
    | some m =>
      m :: reFindFrom r s tries (if m.1 < m.2.1 then m.2.1 else m.2.1 + 1)

/-- `re.finditer` as a list of `(start, end, captures)`. -/
def reFindIter (r : RE) (s : List Char) : List (Nat × Nat × Caps) :=
  reFindFrom r s (s.length + 2) 0

/-- `match.group i` as a character list (the empty list when absent). -/
def capGet (caps : Caps) (i : Nat) (s : List Char) : List Char :=
  match caps.find? (fun t => t.1 = i) with
  | some t => (s.drop t.2.1).take (t.2.2 - t.2.1)
  | none => []

/-- Case-insensitive literal (the source compiles every extraction pattern
with `re.IGNORECASE`). -/
def RE.litCI (w : String) : RE :=
  w.data.foldr (fun c r => RE.cat (RE.cls (fun d => d.toLower = c.toLower)) r) RE.eps

/-- Greedy `?`. -/
def RE.optG (a : RE) : RE := RE.alt a RE.eps

/-- Greedy `+`. -/
def RE.plusG (a : RE) : RE := RE.cat a (RE.starG a)

/-- Lazy `+?`. -/
def RE.plusL (a : RE) : RE := RE.cat a (RE.starL a)

/-- The class `\w`. -/
def isWordC (c : Char) : Bool := c.isAlphanum || c = '_'

/-- The class `[:#-]`. -/
def sepC (c : Char) : Bool := c = ':' || c = '#' || c = '-'

/-- The class `[$€£]`. -/
def currC (c : Char) : Bool := c = '$' || c = '€' || c = '£'

/-- The class `[0-9,.]`. -/
def amtC (c : Char) : Bool := c.isDigit || c = ',' || c = '.'

/-- The class matching a dash or a forward slash (the date separators). -/
def dashSlashC (c : Char) : Bool := c = '-' || c = '/'

/-- `\s*`. -/
def wsStar : RE := RE.starG (RE.cls pyIsSpace)

/-- `\s+`. -/
def wsPlus : RE := RE.plusG (RE.cls pyIsSpace)

/-- `[0-9]{1,2}` (greedy). -/
def digit12 : RE := RE.cat (RE.cls Char.isDigit) (RE.optG (RE.cls Char.isDigit))

/-- `[0-9]{2,4}` (greedy). -/
def digit24 : RE :=
  RE.cat (RE.cls Char.isDigit) (RE.cat (RE.cls Char.isDigit)
    (RE.optG (RE.cat (RE.cls Char.isDigit) (RE.optG (RE.cls Char.isDigit)))))

/-- `invoice\s*(?:number|no\.?|#)\s*[:#-]?\s*(\w+)`, compiled IGNORECASE;
used both by the field-candidate generator and by fusion. -/
def patInvoiceId : RE :=
  RE.cat (RE.litCI "invoice") (RE.cat wsStar (RE.cat
    (RE.alt (RE.litCI "number")
      (RE.alt (RE.cat (RE.litCI "no") (RE.optG (RE.cls (fun c => c = '.')))) (RE.litCI "#")))
    (RE.cat wsStar (RE.cat (RE.optG (RE.cls sepC))
      (RE.cat wsStar (RE.grp 1 (RE.plusG (RE.cls isWordC))))))))

/-- The date pattern `(?:invoice\s*)?(?:date)\s*[:#-]?\s*(...)` where the
group captures day, month and year digit blocks joined by dash or slash
separators (one or two digits, a separator, one or two digits, a separator,
two to four digits), compiled IGNORECASE. -/
def patInvoiceDate : RE :=
  RE.cat (RE.optG (RE.cat (RE.litCI "invoice") wsStar))
    (RE.cat (RE.litCI "date")
      (RE.cat wsStar (RE.cat (RE.optG (RE.cls sepC)) (RE.cat wsStar
        (RE.grp 1 (RE.cat digit12 (RE.cat (RE.cls dashSlashC)
          (RE.cat digit12 (RE.cat (RE.cls dashSlashC) digit24)))))))))

/-- `total\s*(?:due|amount)?\s*[:#-]?\s*([$€£]?\s?[0-9,.]+)`, compiled
IGNORECASE. -/
def patTotal : RE :=
  RE.cat (RE.litCI "total")
    (RE.cat wsStar (RE.cat (RE.optG (RE.alt (RE.litCI "due") (RE.litCI "amount")))
      (RE.cat wsStar (RE.cat (RE.optG (RE.cls sepC)) (RE.cat wsStar
        (RE.grp 1 (RE.cat (RE.optG (RE.cls currC))
          (RE.cat (RE.optG (RE.cls pyIsSpace)) (RE.plusG (RE.cls amtC))))))))))

/-- `^(?P<desc>.+?)\s+(?P<qty>\d+)\s+(?P<price>[$€£]?\s?[0-9,.]+)$` with the
named groups numbered 1, 2, 3; the lines it is applied to contain no newline,
so `$` is the end of the string and `.` never meets a newline. -/
def patLineItem : RE :=
  RE.cat (RE.grp 1 (RE.plusL (RE.cls (fun c => c ≠ '\n'))))
    (RE.cat wsPlus
      (RE.cat (RE.grp 2 (RE.plusG (RE.cls Char.isDigit)))
        (RE.cat wsPlus
          (RE.cat (RE.grp 3 (RE.cat (RE.optG (RE.cls currC))
            (RE.cat (RE.optG (RE.cls pyIsSpace)) (RE.plusG (RE.cls amtC)))))
            RE.eos))))

/-!
## Data model (`extract.py`)
-/

/-- A word/token record as produced by an acquisition tier (only the keys
the pipeline reads: `text`, `x0`, `top`, `x1`, `bottom`). -/
structure Word where
  text : String
  x0 : ℚ
  top : ℚ
  x1 : ℚ
  bottom : ℚ
deriving DecidableEq

/-- A per-page record `\x7bindex, text, words, confidence\x7d`. -/
structure Page where
  index : Nat
  text : String
  words : List Word
  confidence : ℚ
deriving DecidableEq

/-- The fallback page used to spell out list indexing. -/
def defaultPage : Page := ⟨0, "", [], 0⟩

/-- `FieldCandidate` from `extract.py` (the `metadata` mapping, which only
ever stores the pattern text, is omitted). -/
structure FieldCandidate where
  field_name : String
  value : String
  confidence : ℚ
  page_number : Nat
  snippet : Option String
  bbox : Option (ℚ × ℚ × ℚ × ℚ)
  source : Option String
deriving DecidableEq

/-- `ExtractionResult` (the `source_path` attribute is omitted: it is the
unmodified input path). -/
structure ExtractionResult where
  pages : List Page
  field_candidates : List FieldCandidate
  ocr_used : Bool
deriving DecidableEq

/-!
## Page-confidence estimator and candidate generator (`extract.py`)
-/

/-- `Extractor._estimate_page_confidence_from_words` on the token texts
(`word.get("text", "")` projections, in order).  Python truthiness of a
string is non-emptiness. -/
def estimateFromTexts (texts : List String) : ℚ :=
  if texts = [] then 0
  else
    if texts.filter (fun t => t ≠ "") = [] then 0
    else
      pyRound2
        ((min (mean ((texts.filter (fun t => t ≠ "")).map (fun t => (t.length : ℚ))) / 10) 1 +
          min (((texts.filter (fun t => t ≠ "")).dedup.length : ℚ) /
            ((texts.length : ℚ) + 1 / 100000)) 1) / 2)

/-- `Extractor._estimate_page_confidence_from_words`: the source reads only
`word.get("text", "")` from each token dictionary. -/
def estimatePageConfidence (words : List Word) : ℚ :=
  estimateFromTexts (words.map Word.text)

/-- `Extractor._confidence_from_match`. -/
def confidenceFromMatch (value : String) : ℚ :=
  if value = "" then 0
  else
    pyRound2 (min (1 / 2 + ((value.data.filter Char.isDigit).length : ℚ) /
      (value.length : ℚ) * (1 / 2)) (99 / 100))

/-- `Extractor._locate_page_for_match`: walk cumulative text lengths
(each page contributes its length plus one separator) and return the stored
`index` of the first page whose cumulative end exceeds the offset, falling
back to `0` past the end. -/
def locatePage (charIndex : Nat) : List Page → Nat → Nat
  | [], _ => 0
  | p :: rest, cumulative =>
    if charIndex < cumulative + p.text.length + 1 then p.index
    else locatePage charIndex rest (cumulative + p.text.length + 1)

/-- `Extractor._extract_snippet`: the slice from `start - 60` to `end + 60`
(clamped to the stream) with newlines collapsed to spaces. -/
def extractSnippet (st en : Nat) (ts : List Char) : String :=
  (((ts.drop (st - 60)).take (min (en + 60) ts.length - (st - 60))).map
    (fun c => if c = '\n' then ' ' else c)).asString

/-- `Extractor._find_bbox_for_value`: union of the boxes of every word whose
(non-empty) text contains some whitespace-split fragment of the value as a
case-insensitive substring. -/
def findBbox (value : String) (words : List Word) : Option (ℚ × ℚ × ℚ × ℚ) :=
  match words.filterMap (fun w =>
      if w.text ≠ "" ∧ (pySplit value).any
          (fun t => containsSub (strLower t).data (strLower w.text).data) then
        some (w.x0, w.top, w.x1, w.bottom)
      else none) with
  | [] => none
  | b :: bs =>
    some (bs.foldl (fun acc bb => min acc bb.1) b.1,
      bs.foldl (fun acc bb => min acc bb.2.1) b.2.1,
      bs.foldl (fun acc bb => max acc bb.2.2.1) b.2.2.1,
      bs.foldl (fun acc bb => max acc bb.2.2.2) b.2.2.2)

/-- The concatenated text stream: page texts joined by single newlines. -/
def mkTextStream (pages : List Page) : List Char :=
  (String.intercalate "\n" (pages.map Page.text)).data

/-- The ordered pattern table of `Extractor._generate_field_candidates`
(Python dictionaries preserve insertion order). -/
def fieldPatterns : List (String × RE) :=
  [("invoice_id", patInvoiceId), ("invoice_date", patInvoiceDate), ("total", patTotal)]

/-- The trimmed first capture group of a match. -/
def matchValue (ts : List Char) (m : Nat × Nat × Caps) : String :=
  pyStrip (capGet m.2.2 1 ts).asString

/-- The candidate built from one regex match in
`Extractor._generate_field_candidates`. -/
def mkRegexCandidate (pages : List Page) (ts : List Char) (fname : String)
    (m : Nat × Nat × Caps) : FieldCandidate :=
  ⟨fname, matchValue ts m, confidenceFromMatch (matchValue ts m), locatePage m.1 pages 0,
    some (extractSnippet m.1 m.2.1 ts),
    if pages.isEmpty then none
    else findBbox (matchValue ts m) (pages.getD (locatePage m.1 pages 0) defaultPage).words,
    some "regex"⟩

/-- `Extractor._guess_vendor`. -/
def guessVendor : List Page → Option FieldCandidate
  | [] => none
  | fp :: _ =>
    match (((pySplitlines fp.text).take 10).map pyStrip).filter (fun l => l ≠ "") with
    | [] => none
    | cand :: _ =>
      some ⟨"vendor", cand, if 2 ≤ (pySplit cand).length then 6 / 10 else 4 / 10,
        fp.index, some cand, none, some "header"⟩

/-- `Extractor._generate_field_candidates`: all matches of every pattern over
the concatenated stream, then the optional vendor guess; nothing when the
stream is empty. -/
def generateFieldCandidates (pages : List Page) : List FieldCandidate :=
  if (mkTextStream pages).isEmpty then []
  else
    (fieldPatterns.flatMap fun fp =>
      (reFindIter fp.2 (mkTextStream pages)).map
        (mkRegexCandidate pages (mkTextStream pages) fp.1)) ++
      (guessVendor pages).toList

/-!
## Acquisition tiers and selector (`extract.py`)

The tiers perform I/O; the embedding gives them an explicit environment
describing what the backing libraries would return on this document.
-/

/-- The observable behaviour of the document and the optional backends.
`plumberOk` means pdfplumber is installed and opening plus per-page reading
of the document succeeds; `pypdfOk` means PyPDF is installed and opens the
document (per-page text failures already degrade to `""` inside
`pypdfTexts`); `ocrOk` means both OCR backends are present and conversion
plus recognition succeed, yielding `ocrPages` (text and raw word records
per page). -/
structure PdfEnv where
  pathExists : Bool
  plumberOk : Bool
  pypdfOk : Bool
  pypdfTexts : List String
  ocrOk : Bool
  ocrPages : List (String × List Word)
deriving DecidableEq

/-- `Extractor._extract_with_pdfplumber`.  The source returns `[]` when the
library is missing or anything raises, but its success path falls off the
end of the function without a `return pages` statement, so Python yields
`None` there — modelled as `none`, while the explicit empty returns are
`some []`.  The page list the loop builds is discarded. -/
def extractWithPdfplumber (env : PdfEnv) : Option (List Page) :=
  if env.plumberOk then none else some []

/-- `Extractor._extract_with_pypdf`: one record per page with empty `words`
and fixed confidence `0.5`; `[]` when PyPDF is missing or cannot open. -/
def extractWithPypdf (env : PdfEnv) : List Page :=
  if env.pypdfOk then env.pypdfTexts.enum.map (fun p => ⟨p.1, p.2, [], 1 / 2⟩) else []

/-- `Extractor._extract_with_ocr`: `[]` when a backend is missing or
anything raises; otherwise per-page text plus the word records whose text is
non-blank, with confidence from the estimator. -/
def extractWithOcr (env : PdfEnv) : List Page :=
  if env.ocrOk then
    env.ocrPages.enum.map (fun p =>
      ⟨p.1, p.2.1, p.2.2.filter (fun w => pyStrip w.text ≠ ""),
        estimatePageConfidence (p.2.2.filter (fun w => pyStrip w.text ≠ ""))⟩)
  else []

/-- The Python exceptions `process_pdf` can raise. -/
inductive PyError : Type where
  | fileNotFound : PyError
  | typeError : PyError
deriving DecidableEq

/-- The state after the direct-tier attempt of `Extractor.process_pdf`:
either the propagating `TypeError` from `len(None)` in the debug-log call,
or the page list together with the `ocr_used` flag after the mean-confidence
check (an empty result counts as confidence `0`). -/
def directAttempt (thr : ℚ) (env : PdfEnv) : Except PyError (List Page × Bool) :=
  match extractWithPdfplumber env with
  | none => .error .typeError
  | some pages =>
    .ok (pages, decide ((if pages = [] then 0 else mean (pages.map Page.confidence)) < thr))

/-- `Extractor.process_pdf` with threshold `thr` on environment `env`:
missing path raises `FileNotFoundError` before any tier runs; otherwise the
direct tier (unless OCR is forced), the PyPDF fallback when no pages exist
and OCR is not flagged, then OCR when forced, flagged, or still without
pages; finally candidate generation over the resulting pages. -/
def process_pdf (thr : ℚ) (env : PdfEnv) (force_ocr : Bool) :
    Except PyError ExtractionResult :=
  if env.pathExists = false then .error .fileNotFound
  else
    match (if force_ocr then Except.ok ([], true) else directAttempt thr env) with
    | .error e => .error e
    | .ok (pages0, ocrUsed0) =>
      let pages1 := if pages0 = [] ∧ ocrUsed0 = false then extractWithPypdf env else pages0
      let pages2 :=
        if force_ocr = true ∨ ocrUsed0 = true ∨ pages1 = [] then extractWithOcr env else pages1
      let ocrUsed2 :=
        if force_ocr = true ∨ ocrUsed0 = true ∨ pages1 = [] then true else ocrUsed0
      .ok ⟨pages2, generateFieldCandidates pages2, ocrUsed2⟩

/-!
## Entity/field fusion (`ai_parse.py`)
-/

/-- `ParsedField` from `ai_parse.py`. -/
structure ParsedField where
  name : String
  value : String
  confidence : ℚ
  source : String
  reasoning : String
deriving DecidableEq

/-- One vendor record of the caller-supplied known-entity table: identifier,
display name (`vendor.get("name", "")`) and stored prior confidence
(`float(vendor.get("confidence", 0.9))`), in mapping iteration order. -/
structure VendorRecord where
  uid : String
  name : String
  confidence : ℚ
deriving DecidableEq

/-- A reasoning-trail entry `\x7bfield, method, detail\x7d`. -/
structure ReasoningStep where
  field : String
  method : String
  detail : String
deriving DecidableEq

/-- `InvoiceParser._match_known_entity`: the first record whose non-empty
name occurs case-insensitively in the text wins; its stored prior is the
confidence and its stored name the value. -/
def matchKnownEntity (text : String) : List VendorRecord → Option ParsedField
  | [] => none
  | v :: rest =>
    if v.name ≠ "" ∧ containsSub (strLower v.name).data (strLower text).data then
      some ⟨"vendor", v.name, v.confidence, "known_entity",
        "Matched known vendor " ++ v.name⟩
    else matchKnownEntity text rest

/-- `InvoiceParser._regex_extract`: first case-insensitive match of the
pattern, trimmed first group as value, confidence
`round(min(0.95, 0.6 + len(value)/30), 2)`. -/
def regexExtract (text : String) (pat : RE) (label : String) : Option ParsedField :=
  match reSearch pat text.data with
  | none => none
  | some m =>
    some ⟨((strLower label).data.map (fun c => if c = ' ' then '_' else c)).asString,
      pyStrip (capGet m.2.2 1 text.data).asString,
      pyRound2 (min (95 / 100)
        (6 / 10 + ((pyStrip (capGet m.2.2 1 text.data).asString).length : ℚ) / 30)),
      "regex",
      "Detected " ++ strLower label ++ " via regex"⟩

/-- A detected line item `\x7bdescription, quantity, price\x7d`. -/
structure LineItem where
  description : String
  quantity : String
  price : String
deriving DecidableEq

/-- `item_pattern.match(line)` inside `InvoiceParser._extract_line_items`,
returning the three named groups of a matching line. -/
def lineItemMatch (line : String) : Option LineItem :=
  match reMatchAt patLineItem line.data 0 with
  | none => none
  | some m =>
    some ⟨(capGet m.2 1 line.data).asString, (capGet m.2 2 line.data).asString,
      (capGet m.2 3 line.data).asString⟩

/-- `InvoiceParser._extract_line_items`: scan the stripped non-empty lines,
keep every match, and append exactly one reasoning-trail entry when at least
one item was found.  Returns the items and the appended entries. -/
def extractLineItems (text : String) : List LineItem × List ReasoningStep :=
  (((pySplitlines text).map pyStrip).filter (fun l => l ≠ "")).filterMap lineItemMatch |>
    (fun items => (items,
      if items = [] then []
      else [⟨"line_items", "regex-table",
        "Detected " ++ toString items.length ++ " potential line items"⟩]))

/-!
## Specification-side definitions and concrete fixtures
-/

/-- The page-confidence formula exactly as the specification words it
(section 4.1): `0.0` for no tokens, otherwise
`round((min(mean(token_length)/10, 1) + min(distinct/(count + eps), 1))/2, 2)`
over all tokens. -/
def specPageConfidence (tokens : List String) : ℚ :=
  if tokens = [] then 0
  else
    pyRound2
      ((min (mean (tokens.map (fun t => (t.length : ℚ))) / 10) 1 +
        min ((tokens.dedup.length : ℚ) / ((tokens.length : ℚ) + 1 / 100000)) 1) / 2)

/-- The winning vendor record as the specification words it (section 4.5):
the first record in iteration order whose non-empty name occurs in the text
case-insensitively. -/
def firstVendorHit (text : String) (vendors : List VendorRecord) : Option VendorRecord :=
  vendors.find? (fun v => !(v.name == "") && containsSub (strLower v.name).data (strLower text).data)

/-- The `ParsedField` built from a winning vendor record. -/
def mkVendorField (v : VendorRecord) : ParsedField :=
  ⟨"vendor", v.name, v.confidence, "known_entity", "Matched known vendor " ++ v.name⟩

/-- `true` when the string has neither leading nor trailing whitespace. -/
def edgeOk : Option Char → Bool
  | some c => !pyIsSpace c
  | none => true

/-- A trimmed string: no whitespace at either end. -/
def isTrimmed (s : String) : Bool :=
  edgeOk s.data.head? && edgeOk s.data.getLast?

/-- The single page of the specification scenario for candidate generation. -/
def demoPage : Page :=
  ⟨0, "Invoice Number: INV-2024-001\nDate: 03/14/2024\nTotal Due: $1,250.00", [], 9 / 10⟩

/-- An existing document that pdfplumber opens and reads successfully. -/
def envDirectOk : PdfEnv := ⟨true, true, false, [], false, []⟩

/-- An existing document on which every backend works. -/
def envAllOk : PdfEnv :=
  ⟨true, true, true, ["Total Due: $9.99"], true, [("Total Due: $9.99", [])]⟩

/-- An existing document where pdfplumber fails and PyPDF succeeds. -/
def envPypdfOnly : PdfEnv := ⟨true, false, true, ["Total Due: $5"], false, []⟩

/-- A known-entity table whose stored prior exceeds 1. -/
def overConfidentTable : List VendorRecord := [⟨"v1", "Acme", 2⟩]

/-- The known-entity table of the specification scenario. -/
def acmeTable : List VendorRecord := [⟨"acme-001", "Acme Corporation", 95 / 100⟩]

/-- A known-entity table whose stored display name carries whitespace. -/
def spacedNameTable : List VendorRecord := [⟨"v1", " Acme ", 9 / 10⟩]

/-- A token record whose text is empty. -/
def emptyWord : Word := ⟨"", 0, 0, 0, 0⟩

/-- The page-confidence formula amended to what the source computes: tokens
with empty text are excluded from the mean and the distinct count (and the
result is `0.0` when none remain), while the diversity denominator still
counts every token. -/
def specPageConfidenceAmended (tokens : List String) : ℚ :=
  if tokens.filter (fun t => t ≠ "") = [] then 0
  else
    pyRound2
      ((min (mean ((tokens.filter (fun t => t ≠ "")).map (fun t => (t.length : ℚ))) / 10) 1 +
        min (((tokens.filter (fun t => t ≠ "")).dedup.length : ℚ) /
          ((tokens.length : ℚ) + 1 / 100000)) 1) / 2)

/-- The `ParsedField` fusion derives for the invoice number of the demo
document. -/
def pfInvW : ParsedField :=
  ⟨"invoice_number", "INV",
    pyRound2 (min (95 / 100) (6 / 10 + (("INV".length : ℕ) : ℚ) / 30)),
    "regex", "Detected invoice number via regex"⟩

/-- A page on which only the vendor guess fires. -/
def pageXY : Page := ⟨0, "x y", [], 1⟩

/-- The vendor-guess candidate produced for `pageXY`. -/
def vendorCandXY : FieldCandidate :=
  ⟨"vendor", "x y", 6 / 10, 0, some "x y", none, some "header"⟩

/-!
## Helper lemmas
-/

set_option maxRecDepth 40000
set_option maxHeartbeats 2000000

lemma any_isSome_filterMap_ne_nil {α β : Type} (l : List α) (f : α → Option β)
    (h : l.any (fun a => (f a).isSome) = true) : l.filterMap f ≠ [] := by
  induction l with
  | nil => simp at h
  | cons a t ih =>
    rw [List.filterMap_cons]
    rcases ha : f a with _ | b
    · rw [List.any_cons, ha] at h
      simp only [Option.isSome_none, Bool.false_or] at h
      exact ih h
    · simp

lemma locatePage_eq_zero_or_mem (ci : Nat) :
    ∀ (pages : List Page) (cum : Nat),
      locatePage ci pages cum = 0 ∨ ∃ p ∈ pages, locatePage ci pages cum = p.index := by
  intro pages
  induction pages with
  | nil => intro cum; left; rfl
  | cons p rest ih =>
    intro cum
    rw [locatePage]
    by_cases h : ci < cum + p.text.length + 1
    · rw [if_pos h]
      right
      exact ⟨p, List.mem_cons_self p rest, rfl⟩
    · rw [if_neg h]
      rcases ih (cum + p.text.length + 1) with h0 | ⟨q, hq, he⟩
      · left; exact h0
      · right; exact ⟨q, List.mem_cons_of_mem p hq, he⟩

lemma gen_pages_ne_nil (pages : List Page) (c : FieldCandidate)
    (hc : c ∈ generateFieldCandidates pages) : pages ≠ [] := by
  intro he
  subst he
  rw [generateFieldCandidates, if_pos (by rfl)] at hc
  cases hc

lemma mem_generateFieldCandidates (pages : List Page) (c : FieldCandidate)
    (hc : c ∈ generateFieldCandidates pages) :
    (∃ fname m, c = mkRegexCandidate pages (mkTextStream pages) fname m) ∨
      c ∈ (guessVendor pages).toList := by
  rw [generateFieldCandidates] at hc
  by_cases hts : (mkTextStream pages).isEmpty = true
  · rw [if_pos hts] at hc; cases hc
  · rw [if_neg hts] at hc
    rcases List.mem_append.1 hc with h | h
    · left
      obtain ⟨fp, hfp, hm⟩ := List.mem_flatMap.1 h
      obtain ⟨m, hmm, rfl⟩ := List.mem_map.1 hm
      exact ⟨fp.1, m, rfl⟩
    · right; exact h

lemma guessVendor_shape (pages : List Page) (c : FieldCandidate)
    (h : c ∈ (guessVendor pages).toList) :
    ∃ fp rest, pages = fp :: rest ∧ c.page_number = fp.index ∧
      (c.confidence = 6 / 10 ∨ c.confidence = 4 / 10) := by
  cases pages with
  | nil => cases h
  | cons fp rest =>
    rw [guessVendor] at h
    cases hhl : (((pySplitlines fp.text).take 10).map pyStrip).filter (fun l => l ≠ "") with
    | nil => rw [hhl] at h; cases h
    | cons cand t =>
      rw [hhl] at h
      have hce : c = ⟨"vendor", cand, if 2 ≤ (pySplit cand).length then 6 / 10 else 4 / 10,
          fp.index, some cand, none, some "header"⟩ := by
        simpa using h
      refine ⟨fp, rest, rfl, by rw [hce], ?_⟩
      rw [hce]
      by_cases h2 : 2 ≤ (pySplit cand).length
      · left; simp [h2]
      · right; simp [h2]

lemma head?_dropWhile_not (p : Char → Bool) (l : List Char) :
    ∀ c, (l.dropWhile p).head? = some c → p c = false := by
  induction l with
  | nil => intro c h; cases h
  | cons a t ih =>
    intro c h
    rw [List.dropWhile_cons] at h
    by_cases hpa : p a = true
    · rw [if_pos hpa] at h
      exact ih c h
    · rw [if_neg hpa] at h
      rw [List.head?_cons] at h
      injection h with h
      subst h
      exact Bool.eq_false_iff.2 hpa

lemma getLast?_dropWhile (p : Char → Bool) (l : List Char) (h : l.dropWhile p ≠ []) :
    (l.dropWhile p).getLast? = l.getLast? := by
  induction l with
  | nil => simp at h
  | cons a t ih =>
    rw [List.dropWhile_cons] at h ⊢
    by_cases hpa : p a = true
    · rw [if_pos hpa] at h ⊢
      have ht : t ≠ [] := by
        intro he
        subst he
        simp at h
      obtain ⟨b, t2, rfl⟩ := List.exists_cons_of_ne_nil ht
      rw [ih h, List.getLast?_cons_cons]
    · rw [if_neg hpa]

lemma stripChars_trimmed (l : List Char) :
    edgeOk (stripChars l).head? = true ∧ edgeOk (stripChars l).getLast? = true := by
  unfold stripChars
  by_cases h : (l.dropWhile pyIsSpace).reverse.dropWhile pyIsSpace = []
  · rw [h]
    exact ⟨rfl, rfl⟩
  · constructor
    · rw [List.head?_reverse, getLast?_dropWhile _ _ h, List.getLast?_reverse]
      cases hh : (l.dropWhile pyIsSpace).head? with
      | none => rfl
      | some c =>
        simp [edgeOk, head?_dropWhile_not pyIsSpace l c hh]
    · rw [List.getLast?_reverse]
      cases hh : ((l.dropWhile pyIsSpace).reverse.dropWhile pyIsSpace).head? with
      | none => rfl
      | some c =>
        simp [edgeOk, head?_dropWhile_not pyIsSpace (l.dropWhile pyIsSpace).reverse c hh]

lemma isTrimmed_pyStrip (s : String) : isTrimmed (pyStrip s) = true := by
  show (edgeOk (stripChars s.data).head? && edgeOk (stripChars s.data).getLast?) = true
  rw [(stripChars_trimmed s.data).1, (stripChars_trimmed s.data).2]
  rfl

lemma roundHalfEven_nonneg (q : ℚ) (h : 0 ≤ q) : 0 ≤ roundHalfEven q := by
  unfold roundHalfEven
  have hfl : (0 : ℤ) ≤ ⌊q⌋ := Int.le_floor.2 (by simpa using h)
  by_cases h1 : q - ⌊q⌋ = 1 / 2
  · rw [if_pos h1]
    by_cases h2 : ⌊q⌋ % 2 = 0
    · rw [if_pos h2]; exact hfl
    · rw [if_neg h2]; omega
  · rw [if_neg h1, round_eq]
    exact Int.le_floor.2 (by push_cast; linarith)

lemma roundHalfEven_le (q : ℚ) (n : ℤ) (h : q ≤ n) : roundHalfEven q ≤ n := by
  unfold roundHalfEven
  have hfl : ⌊q⌋ ≤ n := (Int.floor_le_floor h).trans_eq (Int.floor_intCast n)
  by_cases h1 : q - ⌊q⌋ = 1 / 2
  · rw [if_pos h1]
    have hqn : q ≠ (n : ℚ) := by
      intro he
      rw [he, Int.floor_intCast] at h1
      norm_num at h1
    have hlt : ⌊q⌋ < n := Int.floor_lt.2 (lt_of_le_of_ne h hqn)
    by_cases h2 : ⌊q⌋ % 2 = 0
    · rw [if_pos h2]; omega
    · rw [if_neg h2]; omega
  · rw [if_neg h1, round_eq]
    have h3 : ⌊q + 1 / 2⌋ < n + 1 := Int.floor_lt.2 (by push_cast; linarith)
    omega

lemma pyRound2_mem_unit (q : ℚ) (h0 : 0 ≤ q) (h1 : q ≤ 1) :
    0 ≤ pyRound2 q ∧ pyRound2 q ≤ 1 := by
  unfold pyRound2
  constructor
  · apply div_nonneg _ (by norm_num)
    exact_mod_cast roundHalfEven_nonneg (q * 100) (by linarith)
  · rw [div_le_one (by norm_num : (0 : ℚ) < 100)]
    have h2 : roundHalfEven (q * 100) ≤ (100 : ℤ) :=
      roundHalfEven_le (q * 100) 100 (by push_cast; linarith)
    exact_mod_cast h2

lemma confidenceFromMatch_mem_unit (s : String) :
    0 ≤ confidenceFromMatch s ∧ confidenceFromMatch s ≤ 1 := by
  unfold confidenceFromMatch
  by_cases h : s = ""
  · rw [if_pos h]; norm_num
  · rw [if_neg h]
    have hr : (0 : ℚ) ≤ ((s.data.filter Char.isDigit).length : ℚ) / (s.length : ℚ) :=
      div_nonneg (by positivity) (by positivity)
    refine pyRound2_mem_unit _ (le_min (by linarith) (by norm_num)) ?_
    exact (min_le_right _ _).trans (by norm_num)

/-!
## Claim theorems
-/

/-- Claim C1 (code bug): a document the direct tier reads successfully makes
`process_pdf` raise `TypeError` — `_extract_with_pdfplumber` falls off its
end without returning the page list it built, so the selector calls `len`
on `None` — instead of using the direct-tier pages with `ocr_used = false`
as the claim states. -/
theorem c1_direct_success_crashes :
    envDirectOk.pathExists = true ∧
    process_pdf (35 / 100) envDirectOk false = Except.error PyError.typeError :=
  ⟨rfl, rfl⟩

/-- Claim C2 (counterexample): on the scenario page, no generated candidate
for `invoice_id` carries the value `INV-2024-001` — the `\w+` capture stops
at the first hyphen. -/
theorem c2_counterexample :
    ¬ ∃ c ∈ generateFieldCandidates [demoPage],
      c.field_name = "invoice_id" ∧ c.value = "INV-2024-001" := by
  decide

/-- Claim C2 (amended): on the scenario page the generator emits exactly the
regex candidates `invoice_id = "INV"` (the `\w+` capture stops at the
hyphen), `invoice_date = "03/14/2024"` and `total = "$1,250.00"`, followed
by the header vendor guess. -/
theorem c2_scenario_candidates :
    (generateFieldCandidates [demoPage]).map (fun c => (c.field_name, c.value, c.source)) =
      [("invoice_id", "INV", some "regex"),
       ("invoice_date", "03/14/2024", some "regex"),
       ("total", "$1,250.00", some "regex"),
       ("vendor", "Invoice Number: INV-2024-001", some "header")] := by
  rfl

/-- Claim C3: when the direct tier yields zero pages (backend missing or
failing) and the OCR flag is still clear after the mean-confidence check,
the PyPDF tier runs as the second attempt: every page it produces has empty
tokens and confidence `0.5`, and when it yields pages they become the final
sequence with `ocr_used = false`. -/
theorem c3_generic_fallback (thr : ℚ) (env : PdfEnv)
    (hpath : env.pathExists = true) (hpl : env.plumberOk = false) (hthr : thr ≤ 0) :
    (∀ p ∈ extractWithPypdf env, p.words = [] ∧ p.confidence = 1 / 2) ∧
    (extractWithPypdf env ≠ [] →
      process_pdf thr env false =
        Except.ok ⟨extractWithPypdf env,
          generateFieldCandidates (extractWithPypdf env), false⟩) := by
  constructor
  · intro p hp
    unfold extractWithPypdf at hp
    by_cases h : env.pypdfOk = true
    · rw [if_pos h] at hp
      obtain ⟨q, hq, rfl⟩ := List.mem_map.1 hp
      exact ⟨rfl, rfl⟩
    · rw [if_neg h] at hp
      cases hp
  · intro hne
    have hlt : ¬ ((0 : ℚ) < thr) := not_lt.2 hthr
    have hd : directAttempt thr env = Except.ok ([], false) := by
      simp [directAttempt, extractWithPdfplumber, hpl, hlt]
    simp [process_pdf, hpath, hd, hne]

/-- Witness for claim C3 at a concrete environment with threshold `0`. -/
theorem c3_witness :
    (envPypdfOnly.pathExists = true ∧ envPypdfOnly.plumberOk = false ∧ (0 : ℚ) ≤ 0) ∧
    (∀ p ∈ extractWithPypdf envPypdfOnly, p.words = [] ∧ p.confidence = 1 / 2) ∧
    (extractWithPypdf envPypdfOnly ≠ [] →
      process_pdf 0 envPypdfOnly false =
        Except.ok ⟨extractWithPypdf envPypdfOnly,
          generateFieldCandidates (extractWithPypdf envPypdfOnly), false⟩) :=
  ⟨⟨rfl, rfl, le_refl 0⟩, c3_generic_fallback 0 envPypdfOnly rfl rfl (le_refl 0)⟩

/-- Claim C4 (counterexample): a known-entity table storing a prior of `2`
yields a vendor `ParsedField` whose confidence exceeds `1` — the stored
prior is taken verbatim, never clamped. -/
theorem c4_counterexample :
    matchKnownEntity "say Acme please" overConfidentTable =
      some (mkVendorField ⟨"v1", "Acme", 2⟩) ∧
    ¬ ((mkVendorField ⟨"v1", "Acme", 2⟩).confidence ≤ 1) :=
  ⟨rfl, by norm_num [mkVendorField]⟩

/-- Claim C4 (amended): every generator candidate and every regex-extracted
`ParsedField` has confidence in `[0, 1]`; the known-entity vendor field has
confidence in `[0, 1]` provided every stored prior of the table lies in
`[0, 1]`. -/
theorem c4_confidence_in_unit_interval :
    (∀ pages : List Page, ∀ c ∈ generateFieldCandidates pages,
      0 ≤ c.confidence ∧ c.confidence ≤ 1) ∧
    (∀ (text : String) (pat : RE) (label : String) (pf : ParsedField),
      regexExtract text pat label = some pf → 0 ≤ pf.confidence ∧ pf.confidence ≤ 1) ∧
    (∀ (text : String) (vendors : List VendorRecord) (pf : ParsedField),
      (∀ v ∈ vendors, 0 ≤ v.confidence ∧ v.confidence ≤ 1) →
      matchKnownEntity text vendors = some pf →
        0 ≤ pf.confidence ∧ pf.confidence ≤ 1) := by
  refine ⟨?_, ?_, ?_⟩
  · intro pages c hc
    rcases mem_generateFieldCandidates pages c hc with ⟨fname, m, rfl⟩ | hv
    · exact confidenceFromMatch_mem_unit _
    · obtain ⟨fp, rest, hp, hpn, hconf | hconf⟩ := guessVendor_shape pages c hv <;>
        rw [hconf] <;> norm_num
  · intro text pat label pf h
    rw [regexExtract] at h
    cases hs : reSearch pat text.data with
    | none => rw [hs] at h; cases h
    | some m =>
      rw [hs] at h
      injection h with h
      rw [← h]
      refine pyRound2_mem_unit _ (le_min (by norm_num) (by positivity)) ?_
      exact (min_le_left _ _).trans (by norm_num)
  · intro text vendors pf htab h
    induction vendors with
    | nil => cases h
    | cons v rest ih =>
      rw [matchKnownEntity] at h
      by_cases hc : (v.name ≠ "" ∧
          containsSub (strLower v.name).data (strLower text).data = true)
      · rw [if_pos hc] at h
        injection h with h
        rw [← h]
        exact htab v (List.mem_cons_self v rest)
      · rw [if_neg hc] at h
        exact ih (fun w hw => htab w (List.mem_cons_of_mem v hw)) h

/-- Witness for claim C4: one generator candidate, one regex field and one
known-entity field, with every hypothesis discharged concretely. -/
theorem c4_witness :
    (0 ≤ vendorCandXY.confidence ∧ vendorCandXY.confidence ≤ 1) ∧
    (0 ≤ pfInvW.confidence ∧ pfInvW.confidence ≤ 1) ∧
    (0 ≤ (mkVendorField ⟨"acme-001", "Acme Corporation", 95 / 100⟩).confidence ∧
      (mkVendorField ⟨"acme-001", "Acme Corporation", 95 / 100⟩).confidence ≤ 1) :=
  ⟨c4_confidence_in_unit_interval.1 [pageXY] vendorCandXY (List.mem_singleton.2 rfl),
   c4_confidence_in_unit_interval.2.1 "Invoice Number: INV-2024-001" patInvoiceId
     "Invoice number" pfInvW rfl,
   c4_confidence_in_unit_interval.2.2 "meet Acme Corporation now" acmeTable
     (mkVendorField ⟨"acme-001", "Acme Corporation", 95 / 100⟩)
     (by
       intro v hv
       rw [List.mem_singleton.1 hv]
       norm_num)
     rfl⟩

/-- Claim C5: with the scenario table, any text containing the vendor name
case-insensitively yields the vendor field with the stored name and prior;
in general the fusion result is exactly the first matching record of the
table in iteration order, mapped to a `ParsedField`. -/
theorem c5_known_entity :
    (∀ text : String, containsSub "acme corporation".data (strLower text).data = true →
      matchKnownEntity text acmeTable =
        some (mkVendorField ⟨"acme-001", "Acme Corporation", 95 / 100⟩)) ∧
    (∀ (text : String) (vendors : List VendorRecord),
      matchKnownEntity text vendors = (firstVendorHit text vendors).map mkVendorField) := by
  constructor
  · intro text h
    simp only [matchKnownEntity, acmeTable]
    rw [if_pos]
    · rfl
    · exact ⟨by decide, h⟩
  · intro text vendors
    induction vendors with
    | nil => rfl
    | cons v rest ih =>
      simp only [matchKnownEntity, firstVendorHit, List.find?] at ih ⊢
      by_cases hc : (v.name ≠ "" ∧
          containsSub (strLower v.name).data (strLower text).data = true)
      · have hb : ((!(v.name == "")) &&
            containsSub (strLower v.name).data (strLower text).data) = true := by
          rw [Bool.and_eq_true]
          exact ⟨by simpa using hc.1, hc.2⟩
        rw [hb, if_pos hc]
        rfl
      · have hb : ((!(v.name == "")) &&
            containsSub (strLower v.name).data (strLower text).data) = false := by
          rw [Bool.eq_false_iff]
          intro hbt
          rw [Bool.and_eq_true] at hbt
          exact hc ⟨by simpa using hbt.1, hbt.2⟩
        rw [hb, if_neg hc]
        exact ih

/-- Witness for claim C5 at a concrete document text. -/
theorem c5_witness :
    (containsSub "acme corporation".data
        (strLower "Bill from Acme Corporation Ltd").data = true) ∧
    matchKnownEntity "Bill from Acme Corporation Ltd" acmeTable =
      some (mkVendorField ⟨"acme-001", "Acme Corporation", 95 / 100⟩) :=
  ⟨by rfl, c5_known_entity.1 "Bill from Acme Corporation Ltd" (by rfl)⟩

/-- Claim C6: over a page sequence with contiguous indices starting at 0,
every candidate the generator emits carries a valid page index. -/
theorem c6_page_numbers (pages : List Page)
    (hcontig : ∀ i (h : i < pages.length), (pages.get ⟨i, h⟩).index = i) :
    ∀ c ∈ generateFieldCandidates pages, c.page_number < pages.length := by
  intro c hc
  have hne : pages ≠ [] := gen_pages_ne_nil pages c hc
  have hlen : 0 < pages.length := List.length_pos.2 hne
  have hidx : ∀ p ∈ pages, p.index < pages.length := by
    intro p hp
    obtain ⟨⟨i, hi⟩, rfl⟩ := List.mem_iff_get.1 hp
    rw [hcontig i hi]
    exact hi
  rcases mem_generateFieldCandidates pages c hc with ⟨fname, m, rfl⟩ | hv
  · show locatePage m.1 pages 0 < pages.length
    rcases locatePage_eq_zero_or_mem m.1 pages 0 with h0 | ⟨p, hp, he⟩
    · rw [h0]; exact hlen
    · rw [he]; exact hidx p hp
  · obtain ⟨fp, rest, hp, hpn, _⟩ := guessVendor_shape pages c hv
    rw [hpn]
    exact hidx fp (hp ▸ List.mem_cons_self fp rest)

/-- Witness for claim C6 on the concrete scenario page. -/
theorem c6_witness :
    ((generateFieldCandidates [demoPage]).map (fun c => c.page_number)).all
      (fun n => decide (n < 1)) = true := by
  rw [List.all_eq_true]
  intro n hn
  obtain ⟨c, hc, rfl⟩ := List.mem_map.1 hn
  exact decide_eq_true (c6_page_numbers [demoPage]
    (fun i h => by
      have h0 : i = 0 := Nat.lt_one_iff.1 h
      subst h0
      rfl) c hc)

/-- Claim C8 (code bug): `process_pdf` can raise even when the document
path exists — on any document pdfplumber reads successfully, the missing
`return` in `_extract_with_pdfplumber` surfaces as a `TypeError` from
`len(None)`, escaping the selector; the claim says only a missing path may
raise. -/
theorem c8_typeError_escapes :
    envAllOk.pathExists = true ∧
    process_pdf (35 / 100) envAllOk false = Except.error PyError.typeError ∧
    PyError.typeError ≠ PyError.fileNotFound := by
  refine ⟨rfl, rfl, ?_⟩
  intro h
  exact PyError.noConfusion h

/-- Claim C9: the line `Widgets 10 $4.50` parses into the expected line
item, `Widgets ten dollars` does not, and whenever some stripped line
matches, line-item detection appends exactly one reasoning-trail entry. -/
theorem c9_line_items :
    lineItemMatch "Widgets 10 $4.50" = some ⟨"Widgets", "10", "$4.50"⟩ ∧
    lineItemMatch "Widgets ten dollars" = none ∧
    ∀ text : String,
      (((pySplitlines text).map pyStrip).filter (fun l => l ≠ "")).any
          (fun l => (lineItemMatch l).isSome) = true →
        (extractLineItems text).2.length = 1 := by
  refine ⟨rfl, rfl, ?_⟩
  intro text h
  have hne := any_isSome_filterMap_ne_nil _ lineItemMatch h
  simp only [extractLineItems]
  rw [if_neg hne]
  rfl

/-- Witness for claim C9 at a concrete two-line document. -/
theorem c9_witness :
    ((((pySplitlines "Widgets 10 $4.50\nWidgets ten dollars").map pyStrip).filter
        (fun l => l ≠ "")).any (fun l => (lineItemMatch l).isSome) = true) ∧
    (extractLineItems "Widgets 10 $4.50\nWidgets ten dollars").2.length = 1 :=
  ⟨by rfl, c9_line_items.2.2 "Widgets 10 $4.50\nWidgets ten dollars" (by rfl)⟩

/-- Claim C10 (counterexample): a known-entity table storing the name
`" Acme "` yields a vendor `ParsedField` whose value keeps its surrounding
whitespace — the stored name is never trimmed. -/
theorem c10_counterexample :
    (matchKnownEntity "go Acme now" spacedNameTable).map ParsedField.value = some " Acme " ∧
    isTrimmed " Acme " = false :=
  ⟨rfl, rfl⟩

/-- Claim C10 (amended): every regex-extracted `ParsedField` value is
trimmed; the known-entity vendor value equals the stored display name and
is therefore trimmed whenever the table stores trimmed names. -/
theorem c10_trimmed_values :
    (∀ (text : String) (pat : RE) (label : String) (pf : ParsedField),
      regexExtract text pat label = some pf → isTrimmed pf.value = true) ∧
    (∀ (text : String) (vendors : List VendorRecord) (pf : ParsedField),
      (∀ v ∈ vendors, isTrimmed v.name = true) →
      matchKnownEntity text vendors = some pf → isTrimmed pf.value = true) := by
  constructor
  · intro text pat label pf h
    rw [regexExtract] at h
    cases hs : reSearch pat text.data with
    | none => rw [hs] at h; cases h
    | some m =>
      rw [hs] at h
      injection h with h
      rw [← h]
      exact isTrimmed_pyStrip _
  · intro text vendors pf htab h
    induction vendors with
    | nil => cases h
    | cons v rest ih =>
      rw [matchKnownEntity] at h
      by_cases hc : (v.name ≠ "" ∧
          containsSub (strLower v.name).data (strLower text).data = true)
      · rw [if_pos hc] at h
        injection h with h
        rw [← h]
        exact htab v (List.mem_cons_self v rest)
      · rw [if_neg hc] at h
        exact ih (fun w hw => htab w (List.mem_cons_of_mem v hw)) h

lemma estimateFromTexts_eq_amended (texts : List String) :
    estimateFromTexts texts = specPageConfidenceAmended texts := by
  unfold estimateFromTexts specPageConfidenceAmended
  by_cases h0 : texts = []
  · subst h0
    simp
  · rw [if_neg h0]

lemma mean_nonneg_of (l : List ℚ) (h : ∀ x ∈ l, 0 ≤ x) : 0 ≤ mean l := by
  unfold mean
  exact div_nonneg (List.sum_nonneg h) (by positivity)

lemma estimateFromTexts_mem_unit (texts : List String) :
    0 ≤ estimateFromTexts texts ∧ estimateFromTexts texts ≤ 1 := by
  unfold estimateFromTexts
  by_cases h0 : texts = []
  · rw [if_pos h0]; norm_num
  · rw [if_neg h0]
    by_cases h1 : texts.filter (fun t => t ≠ "") = []
    · rw [if_pos h1]; norm_num
    · rw [if_neg h1]
      have hm : (0 : ℚ) ≤
          mean ((texts.filter (fun t => t ≠ "")).map (fun t => (t.length : ℚ))) := by
        apply mean_nonneg_of
        intro x hx
        obtain ⟨t, ht, rfl⟩ := List.mem_map.1 hx
        positivity
      have hd : (0 : ℚ) ≤ ((texts.filter (fun t => t ≠ "")).dedup.length : ℚ) /
          ((texts.length : ℚ) + 1 / 100000) := by positivity
      refine pyRound2_mem_unit _ ?_ ?_
      · have a1 : (0 : ℚ) ≤ min (mean ((texts.filter (fun t => t ≠ "")).map
            (fun t => (t.length : ℚ))) / 10) 1 := le_min (by linarith) (by norm_num)
        have a2 : (0 : ℚ) ≤ min (((texts.filter (fun t => t ≠ "")).dedup.length : ℚ) /
            ((texts.length : ℚ) + 1 / 100000)) 1 := le_min hd (by norm_num)
        linarith
      · have b1 := min_le_right (mean ((texts.filter (fun t => t ≠ "")).map
            (fun t => (t.length : ℚ))) / 10) (1 : ℚ)
        have b2 := min_le_right (((texts.filter (fun t => t ≠ "")).dedup.length : ℚ) /
            ((texts.length : ℚ) + 1 / 100000)) (1 : ℚ)
        linarith

/-- Claim C7 (amended): the estimator computes the amended formula — tokens
with empty text are excluded from the length mean and the distinct count
(returning `0.0` when none remain, as for the empty list), while the
diversity denominator counts every token — and its result always lies in
`[0, 1]`. -/
theorem c7_estimator :
    ∀ words : List Word,
      estimatePageConfidence words = specPageConfidenceAmended (words.map Word.text) ∧
      0 ≤ estimatePageConfidence words ∧ estimatePageConfidence words ≤ 1 :=
  fun words =>
    ⟨estimateFromTexts_eq_amended (words.map Word.text),
     estimateFromTexts_mem_unit (words.map Word.text)⟩

/-- Claim C7 (counterexample): for a single token with empty text the
source returns `0.0` while the formula as worded in the specification
yields `0.5` — the guard `if not lengths: return 0.0` is missing from the
claim. -/
theorem c7_counterexample :
    estimatePageConfidence [emptyWord] = 0 ∧
    specPageConfidence [""] = 1 / 2 ∧ ((0 : ℚ) ≠ 1 / 2) := by
  refine ⟨rfl, ?_, by norm_num⟩
  have h1 : mean (List.map (fun t => ((t.length : ℕ) : ℚ)) [""]) = 0 := by
    simp [mean]
  have h2 : ([""] : List String).dedup = [""] := by simp
  rw [specPageConfidence, if_neg (by simp)]
  rw [h1, h2]
  have h5 : ((min ((0 : ℚ) / 10) 1 +
      min ((([""] : List String).length : ℚ) /
        ((([""] : List String).length : ℚ) + 1 / 100000)) 1) / 2) =
      50000 / 100001 := by
    norm_num
  rw [h5]
  rw [pyRound2, roundHalfEven]
  have hfl : ⌊(50000 / 100001 : ℚ) * 100⌋ = 49 := by
    rw [Int.floor_eq_iff]
    constructor <;> norm_num
  rw [hfl, if_neg (by norm_num)]
  have hrd : round ((50000 / 100001 : ℚ) * 100) = 50 := by
    rw [round_eq, Int.floor_eq_iff]
    constructor <;> norm_num
  rw [hrd]
  norm_num

/-- Witness for claim C10: a regex field and a known-entity field with the
hypotheses discharged concretely. -/
theorem c10_witness :
    (∀ v ∈ acmeTable, isTrimmed v.name = true) ∧
    isTrimmed pfInvW.value = true ∧
    isTrimmed (mkVendorField ⟨"acme-001", "Acme Corporation", 95 / 100⟩).value = true :=
  ⟨by decide,
   c10_trimmed_values.1 "Invoice Number: INV-2024-001" patInvoiceId
     "Invoice number" pfInvW rfl,
   c10_trimmed_values.2 "meet Acme Corporation now" acmeTable
     (mkVendorField ⟨"acme-001", "Acme Corporation", 95 / 100⟩) (by decide) rfl⟩

end InvoiceAI
